import Mathlib

/-!
Verification of the synthetic-data-kit core pipeline
(`synthetic_data_kit/core/create.py` and `synthetic_data_kit/core/ingest.py`).

Python JSON values are modelled by the inductive `JSON` below; Python dicts
(as produced by `json.load`, hence with unique keys, insertion order kept)
are modelled as association lists.  Machine effects (file writes, the network
probe, file existence) are passed in as explicit booleans; fallible steps
return `Option` / `Except`.
-/

namespace SDK

/-- A Python JSON value, as produced by `json.load`. -/
inductive JSON where
  | null
  | bool (b : Bool)
  | num (n : Int)
  | str (s : String)
  | arr (elems : List JSON)
  | obj (fields : List (String × JSON))

/-- Python `d[key]` / `key in d` lookup on a dict: the value at `key`, if present.
Dicts from `json.load` have unique keys, so first-match lookup is dict lookup. -/
def getField : List (String × JSON) → String → Option JSON
  | [], _ => none
  | kv :: rest, key => if kv.1 = key then some kv.2 else getField rest key

/-- Python `d[key] = v` on a dict whose `key` is present: the value is replaced
in place, the key order and every other binding are unchanged. -/
def setField (fields : List (String × JSON)) (key : String) (v : JSON) :
    List (String × JSON) :=
  fields.map (fun kv => if kv.1 = key then (kv.1, v) else kv)

/-- Whether a value is a Python list (`isinstance(x, list)`). -/
def isArr : JSON → Bool
  | .arr _ => true
  | _ => false

/-- Whether a value is a Python dict (`isinstance(x, dict)`). -/
def isObj : JSON → Bool
  | .obj _ => true
  | _ => false

/-! ## `create.py`, `content_type == "cot-enhance"` (lines 196-316)

The reasoning-augmentation strategy `COTGenerator.enhance_with_cot` is an
external collaborator: the embedding takes it as a parameter
`enhance : List JSON → JSON` (it receives the `conversations` message list,
which the caller has checked to be a Python list, and may return any value).
-/

/-- Modelled from the spec: `convert_to_conversation_format` lives in
`synthetic_data_kit/utils/llm_processing`, which is not part of the sources
under verification.  Per the spec it converts each QA pair into a two-message
conversation: a human message carrying the question and an assistant message
carrying the answer. -/
def qaPairToConversation (qa : JSON) : JSON :=
  let field (key : String) : JSON :=
    match qa with
    | .obj fs => match getField fs key with
      | some v => v
      | none => .null
    | _ => .null
  .arr [ .obj [("from", .str "human"), ("value", field "question")],
         .obj [("from", .str "assistant"), ("value", field "answer")] ]

/-- Modelled from the spec: `convert_to_conversation_format(qa_pairs)` maps the
fixed QA-pair rule over the list of pairs. -/
def convert_to_conversation_format (qa_pairs : JSON) : List JSON :=
  match qa_pairs with
  | .arr ps => ps.map qaPairToConversation
  | _ => []

/-- The element test of the shape-3 branch (create.py line 239):
`all("conversations" in item for item in data if isinstance(item, dict))` —
a non-dict element is skipped by the filter and therefore counts as `true`. -/
def dictHasConversations (item : JSON) : Bool :=
  match item with
  | .obj fs => (getField fs "conversations").isSome
  | _ => true

/-- The element test of the shape-4 branch (create.py line 243):
`isinstance(msg, dict) and "from" in msg`. -/
def isMessageDict (msg : JSON) : Bool :=
  match msg with
  | .obj fs => (getField fs "from").isSome
  | _ => false

/-- The five-way shape classification of create.py lines 220-250, in source
order.  Returns the `conversations` value (the raw fallback value for shape 5)
together with `is_single_conversation`. -/
def normalizeConversations (data : JSON) : JSON × Bool :=
  match data with
  | .obj fields =>
    match getField fields "qa_pairs" with
    | some qp =>
      -- shape 1: conversations = [{"conversations": conv} for conv in conv_list]
      (.arr ((convert_to_conversation_format qp).map
          (fun conv => .obj [("conversations", conv)])), false)
    | none =>
      match getField fields "conversations" with
      | some _ => (.arr [.obj fields], true)    -- shape 2: [data], singleton
      | none => (.obj fields, false)            -- shape 5 fallback: data itself
  | .arr items =>
    if items.all dictHasConversations then
      (.arr items, false)                       -- shape 3: data itself
    else if items.all isMessageDict then
      (.arr [.obj [("conversations", .arr items)]], true)  -- shape 4
    else
      (.arr items, false)                       -- shape 5 fallback: data itself
  | other => (other, false)                     -- shape 5 fallback: data itself

/-- The sequence Python iterates over for a given `conversations` value:
a list yields its elements, a string its characters, a dict its keys;
`len` and iteration of any other value raise `TypeError` (`none`).
(One divergence, unreachable from the claims: slicing a dict raises in
Python, while this model slices its key sequence.) -/
def toConvList : JSON → Option (List JSON)
  | .arr xs => some xs
  | .str s => some (s.data.map (fun c => .str (String.mk [c])))
  | .obj fields => some (fields.map (fun kv => .str kv.1))
  | _ => none

/-- create.py lines 206-213: `max_examples = num_pairs` when the user gave one,
else the configured `num_cot_enhance_examples` (default `None`, enhance all). -/
def resolveMaxExamples (num_pairs cfg : Option Nat) : Option Nat :=
  match num_pairs with
  | some n => some n
  | none => cfg

/-- create.py lines 252-256: truncate once, before the loop, when a limit is
set and the batch is longer. -/
def truncateConversations (max_examples : Option Nat) (convs : List JSON) :
    List JSON :=
  match max_examples with
  | some m => if convs.length > m then convs.take m else convs
  | none => convs

/-- create.py lines 284-289: the nested-response fix.  When the strategy result
is a non-empty Python list whose first element is itself a list, keep only that
first element; otherwise keep the result as is. -/
def fixNestedResponse (em : JSON) : JSON :=
  match em with
  | .arr (first :: rest) =>
    match first with
    | .arr inner => .arr inner
    | _ => .arr (first :: rest)
  | other => other

/-- create.py lines 264-297, one loop iteration: a dict with a list-valued
`conversations` field gets that field replaced by the (nest-fixed) strategy
output on a shallow copy; a dict whose `conversations` is not a list, a dict
without the key, and a non-dict item all pass through unchanged. -/
def enhanceConversationItem (enhance : List JSON → JSON) (conversation : JSON) :
    JSON :=
  match conversation with
  | .obj fields =>
    match getField fields "conversations" with
    | some (.arr msgs) =>
      .obj (setField fields "conversations" (fixNestedResponse (enhance msgs)))
    | some _ => .obj fields    -- warning printed, original kept
    | none => .obj fields      -- not the expected format, original kept
  | other => other             -- not the expected format, original kept

/-- The whole enhancement loop: one output item appended per input item. -/
def enhanceBatch (enhance : List JSON → JSON) : List JSON → List JSON
  | [] => []
  | c :: cs => enhanceConversationItem enhance c :: enhanceBatch enhance cs

/-- create.py lines 302-308: dump the lone batch element bare when
`is_single_conversation and len(enhanced_conversations) == 1`, else dump the
list. -/
def wrapOutput : Bool → List JSON → JSON
  | true, [e] => e
  | _, es => .arr es

/-- The full cot-enhance data pipeline (create.py lines 216-308): classify the
parsed JSON, truncate, enhance each item, and produce the JSON value passed to
`json.dump`.  `none` models the `TypeError` raised by `len(conversations)` on
an unsized shape-5 value. -/
def cotEnhancePipeline (enhance : List JSON → JSON) (max_examples : Option Nat)
    (data : JSON) : Option JSON :=
  let n := normalizeConversations data
  match toConvList n.1 with
  | none => none
  | some convs =>
    some (wrapOutput n.2 (enhanceBatch enhance (truncateConversations max_examples convs)))

/-! ## `ingest.py`

Paths and URLs are modelled as `List Char`.  The PDF network probe
(`_check_pdf_url`, which already converts connection failure to `False`) and
the `os.path.exists` check are passed in as booleans. -/

/-- Python `s.startswith(t)` over character lists. -/
def startsWithL : List Char → List Char → Bool
  | [], _ => true
  | _ :: _, [] => false
  | a :: as, b :: bs => a = b && startsWithL as bs

/-- Python `needle in hay` substring containment over character lists. -/
def containsSub (needle : List Char) : List Char → Bool
  | [] => startsWithL needle []
  | hay@(_ :: rest) => startsWithL needle hay || containsSub needle rest

/-- Index of the last occurrence of a character, if any. -/
def lastIdxOf (c : Char) : List Char → Option Nat
  | [] => none
  | x :: xs =>
    match lastIdxOf c xs with
    | some i => some (i + 1)
    | none => if x = c then some 0 else none

/-- `os.path.splitext(p)[1]` on POSIX: the extension starts at the last dot,
provided that dot lies after the last path separator and the part of the base
name before it is not all dots (leading dots of a base name never start an
extension). -/
def splitextExt (p : List Char) : List Char :=
  let sepIndex : Int := match lastIdxOf '/' p with
    | some i => (i : Int)
    | none => -1
  let dotIndex : Int := match lastIdxOf '.' p with
    | some i => (i : Int)
    | none => -1
  if sepIndex < dotIndex then
    let dotN := dotIndex.toNat
    let nameStart := (sepIndex + 1).toNat
    if ((p.drop nameStart).take (dotN - nameStart)).any (fun ch => ch ≠ '.') then
      p.drop dotN
    else []
  else []

/-- Python `s.lower()` (the paths in play are ASCII). -/
def lowerL (l : List Char) : List Char := l.map Char.toLower

/-- The parser implementations (external collaborators; only identity matters). -/
inductive Parser where
  | PDFParser
  | HTMLParser
  | YouTubeParser
  | DOCXParser
  | PPTParser
  | TXTParser
  | MultimodalParser
deriving DecidableEq

/-- The errors `determine_parser` can raise. -/
inductive IngestError where
  | UnsupportedFormat
  | FileNotFound
deriving DecidableEq

/-- ingest.py lines 36-83, `determine_parser`: extension via lowered
`splitext`; the multimodal whitelist; then the unconditional `.pdf` branch;
then the URL branch (YouTube substring test first, then the network probe,
else HTML — at that point `multimodal` is `False`, so the probe returns the
PDF parser); then the local-extension table guarded by existence. -/
def determineParser (file_path : List Char) (multimodal : Bool)
    (pdfProbe : Bool) (fileExists : Bool) : Except IngestError Parser :=
  let ext := lowerL (splitextExt file_path)
  if multimodal then
    if ext = ".pdf".data ∨ ext = ".docx".data ∨ ext = ".pptx".data then
      .ok .MultimodalParser
    else
      .error .UnsupportedFormat
  else if ext = ".pdf".data then
    .ok .PDFParser
  else if startsWithL "http://".data file_path ||
      startsWithL "https://".data file_path then
    if containsSub "youtube.com".data file_path ||
        containsSub "youtu.be".data file_path then
      .ok .YouTubeParser
    else if pdfProbe then
      .ok .PDFParser
    else
      .ok .HTMLParser
  else if fileExists then
    if ext = ".html".data then .ok .HTMLParser
    else if ext = ".htm".data then .ok .HTMLParser
    else if ext = ".docx".data then .ok .DOCXParser
    else if ext = ".pptx".data then .ok .PPTParser
    else if ext = ".txt".data then .ok .TXTParser
    else .error .UnsupportedFormat
  else
    .error .FileNotFound

/-- `re.search(r"(?:v=|\.be/)([^&]+)", url)`: scan left to right; at the first
position where `v=` or `.be/` matches and is followed by at least one non-`&`
character, the group is the maximal run of non-`&` characters; `none` when no
position matches (`re.search` returns `None`). -/
def searchVideoId : List Char → Option (List Char)
  | [] => none
  | l@(_ :: rest) =>
    if startsWithL "v=".data l then
      let g := (l.drop 2).takeWhile (fun c => c ≠ '&')
      if g.isEmpty then searchVideoId rest else some g
    else if startsWithL ".be/".data l then
      let g := (l.drop 4).takeWhile (fun c => c ≠ '&')
      if g.isEmpty then searchVideoId rest else some g
    else
      searchVideoId rest

/-- `urlparse(url).netloc` for an `http(s)://` URL: the part after the scheme
separator up to the first `/`, `?` or `#`. -/
def urlNetloc (url : List Char) : List Char :=
  let afterScheme :=
    if startsWithL "https://".data url then url.drop 8
    else if startsWithL "http://".data url then url.drop 7
    else []
  afterScheme.takeWhile (fun c => c ≠ '/' && c ≠ '?' && c ≠ '#')

/-- `os.path.basename` on POSIX: everything after the last `/`. -/
def basenameL (p : List Char) : List Char :=
  match lastIdxOf '/' p with
  | some i => p.drop (i + 1)
  | none => p

/-- `os.path.splitext(p)[0]`: the path minus its extension. -/
def splitextRoot (p : List Char) : List Char :=
  p.take (p.length - (splitextExt p).length)

/-- ingest.py lines 118-136: derive `output_name` when none was given.
YouTube URLs use the video id extracted by `searchVideoId`; `none` models the
`AttributeError` from calling `.group(1)` on a failed search.  Other URLs use
the netloc with dots replaced by underscores; local paths use the stem of the
base name. -/
def deriveOutputName (file_path : List Char) : Option (List Char) :=
  if startsWithL "http://".data file_path ||
      startsWithL "https://".data file_path then
    if containsSub "youtube.com".data file_path ||
        containsSub "youtu.be".data file_path then
      match searchVideoId file_path with
      | some vid => some ("youtube_".data ++ vid)
      | none => none
    else
      some ((urlNetloc file_path).map (fun c => if c = '.' then '_' else c))
  else
    some (splitextRoot (basenameL file_path))

/-- ingest.py line 118, `if not output_name`: an absent or empty custom name
falls back to the derived one. -/
def resolveOutputName (output_name : Option (List Char))
    (file_path : List Char) : Option (List Char) :=
  match output_name with
  | some n => if n.isEmpty then deriveOutputName file_path else some n
  | none => deriveOutputName file_path

/-! ## `create.py`, the `process_file` content-type dispatch (lines 88-320)

The generator calls are external collaborators; what the dispatch decides —
and what claim C8 is about — is which branch runs, which output path each
branch returns, and whether a failure of the final `open`/`json.dump`
propagates.  `writeFails` says whether that final write raises; in the `qa`
branch the write sits in a `try/except Exception` that only logs (lines
110-115), everywhere else it is unprotected. -/

/-- Errors `process_file` can raise past its top level. -/
inductive CreateError where
  | writeError         -- the final output write raised
  | invalidInput       -- cot-enhance input was not parseable JSON (ValueError)
  | typeError          -- len() on an unsized shape-5 fallback value
  | unknownContentType -- the trailing ValueError branch
deriving DecidableEq

/-- `os.path.join(dir, name)` for a plain relative `name`. -/
def pathJoin (dir name : String) : String := dir ++ "/" ++ name

/-- create.py `process_file`, reduced to its dispatch: `content_type` is
matched in source order (`qa`, `multimodal-qa`, `vqa`, `summary`, `cot`,
`cot-enhance`, else `ValueError`).  `generatorPath` is the path an external
generator returns in the `multimodal-qa`/`vqa` branches; `inputJSON` is the
parse result of the cot-enhance input file (`none` = `json.JSONDecodeError`).
Returns the output path on success. -/
def process_file (content_type base_name output_dir : String)
    (writeFails : Bool) (generatorPath : String)
    (enhance : List JSON → JSON) (num_pairs cfgMax : Option Nat)
    (inputJSON : Option JSON) : Except CreateError String :=
  if content_type = "qa" then
    -- the write failure is caught and only printed; the path is returned
    .ok (pathJoin output_dir (base_name ++ "_qa_pairs.json"))
  else if content_type = "multimodal-qa" then
    .ok generatorPath
  else if content_type = "vqa" then
    .ok generatorPath
  else if content_type = "summary" then
    if writeFails then .error .writeError
    else .ok (pathJoin output_dir (base_name ++ "_summary.json"))
  else if content_type = "cot" then
    if writeFails then .error .writeError
    else .ok (pathJoin output_dir (base_name ++ "_cot_examples.json"))
  else if content_type = "cot-enhance" then
    match inputJSON with
    | none => .error .invalidInput
    | some data =>
      match cotEnhancePipeline enhance (resolveMaxExamples num_pairs cfgMax) data with
      | none => .error .typeError
      | some _ =>
        if writeFails then .error .writeError
        else .ok (pathJoin output_dir (base_name ++ "_enhanced.json"))
  else
    .error .unknownContentType

/-! ## Helper lemmas and concrete strategy instances -/

/-- The enhancement loop is a map: one output item per input item, in order. -/
theorem enhanceBatch_eq_map (enhance : List JSON → JSON) (l : List JSON) :
    enhanceBatch enhance l = l.map (enhanceConversationItem enhance) := by
  induction l with
  | nil => rfl
  | cons c cs ih => simp [enhanceBatch, ih]

/-- Replacing one dict key leaves every other key's value unchanged. -/
theorem getField_setField_ne (fields : List (String × JSON)) (key k : String)
    (v : JSON) (hk : k ≠ key) :
    getField (setField fields key v) k = getField fields k := by
  induction fields with
  | nil => rfl
  | cons kv rest ih =>
    simp only [setField, List.map_cons] at *
    by_cases h : kv.1 = key
    · have hne : ¬ key = k := fun hkk => hk hkk.symm
      simp [getField, h, hne, ih]
    · by_cases h2 : kv.1 = k
      · simp [getField, h, h2, hk]
      · simp [getField, h, h2, ih]

/-- An item whose `conversations` value is present but not a list passes
through the loop body unchanged (create.py lines 270-273). -/
theorem enhanceItem_of_malformed (enhance : List JSON → JSON)
    (fields : List (String × JSON)) (v : JSON)
    (h1 : getField fields "conversations" = some v)
    (h2 : isArr v = false) :
    enhanceConversationItem enhance (JSON.obj fields) = JSON.obj fields := by
  simp only [enhanceConversationItem]
  rw [h1]
  cases v <;> first | rfl | simp [isArr] at h2

/-- A limit that is absent or at least the batch length leaves the batch
untouched (create.py line 253 only slices when the batch is longer). -/
theorem truncateConversations_of_le (maxE : Option Nat) (convs : List JSON)
    (h : ∀ m, maxE = some m → convs.length ≤ m) :
    truncateConversations maxE convs = convs := by
  cases maxE with
  | none => rfl
  | some m =>
    simp only [truncateConversations]
    rw [if_neg (Nat.not_lt.mpr (h m rfl))]

/-- A concrete strategy instance for evaluating the theorems: it returns the
message list unchanged. -/
def idStrategy : List JSON → JSON := fun msgs => JSON.arr msgs

/-- A concrete strategy instance exhibiting the backend quirk: it returns the
message list wrapped in one extra enclosing list. -/
def nestedStrategy : List JSON → JSON := fun msgs => JSON.arr [JSON.arr msgs]

/-- An item whose `conversations` value is a list has that field replaced by
the nest-fixed strategy output on a shallow copy (create.py lines 281-294). -/
theorem enhanceItem_of_list (enhance : List JSON → JSON)
    (fields : List (String × JSON)) (msgs : List JSON)
    (h : getField fields "conversations" = some (JSON.arr msgs)) :
    enhanceConversationItem enhance (JSON.obj fields)
      = JSON.obj (setField fields "conversations"
          (fixNestedResponse (enhance msgs))) := by
  simp only [enhanceConversationItem]
  rw [h]

/-! ## The claims -/

/-- C1: every JSON object containing the key `qa_pairs` — whatever else it
contains, a `conversations` key included — classifies as shape 1: each QA
pair becomes a two-message conversation (human question, assistant answer)
wrapped as `{"conversations": conv}`, and `is_single_conversation = false`.
The right-hand side depends only on the `qa_pairs` value, so the
`conversations` key is never consulted. -/
theorem qa_pairs_priority (fields : List (String × JSON)) (qp : JSON)
    (h : getField fields "qa_pairs" = some qp) :
    normalizeConversations (JSON.obj fields) =
      (JSON.arr ((convert_to_conversation_format qp).map
        (fun conv => JSON.obj [("conversations", conv)])), false) := by
  simp [normalizeConversations, h]

/-- C1 witness: an object carrying both `qa_pairs` and `conversations`
classifies as shape 1, with the QA pair mapped to the two-message form. -/
theorem qa_pairs_priority_witness :
    getField [("qa_pairs",
        JSON.arr [JSON.obj [("question", JSON.str "q"), ("answer", JSON.str "a")]]),
      ("conversations", JSON.str "ignored")] "qa_pairs"
      = some (JSON.arr [JSON.obj [("question", JSON.str "q"), ("answer", JSON.str "a")]])
    ∧ normalizeConversations (JSON.obj [("qa_pairs",
        JSON.arr [JSON.obj [("question", JSON.str "q"), ("answer", JSON.str "a")]]),
      ("conversations", JSON.str "ignored")])
      = (JSON.arr [JSON.obj [("conversations", JSON.arr
          [JSON.obj [("from", JSON.str "human"), ("value", JSON.str "q")],
           JSON.obj [("from", JSON.str "assistant"), ("value", JSON.str "a")]])]],
         false) :=
  ⟨rfl, qa_pairs_priority
    [("qa_pairs",
        JSON.arr [JSON.obj [("question", JSON.str "q"), ("answer", JSON.str "a")]]),
      ("conversations", JSON.str "ignored")]
    (JSON.arr [JSON.obj [("question", JSON.str "q"), ("answer", JSON.str "a")]])
    rfl⟩

/-- C3: whenever the strategy returns a non-empty list whose first element is
itself a list, the enhancer stores that first element — one level of nesting
removed — in the `conversations` field, and the loop body returns normally. -/
theorem unwrap_nested_response (enhance : List JSON → JSON)
    (fields : List (String × JSON)) (msgs inner rest : List JSON)
    (h : getField fields "conversations" = some (JSON.arr msgs))
    (he : enhance msgs = JSON.arr (JSON.arr inner :: rest)) :
    enhanceConversationItem enhance (JSON.obj fields)
      = JSON.obj (setField fields "conversations" (JSON.arr inner)) := by
  rw [enhanceItem_of_list enhance fields msgs h, he]
  rfl

/-- C3 witness: a strategy that returns `[[m1, m2]]` has `[m1, m2]` stored. -/
theorem unwrap_nested_response_witness :
    getField [("conversations", JSON.arr [JSON.str "m1", JSON.str "m2"])]
        "conversations" = some (JSON.arr [JSON.str "m1", JSON.str "m2"])
    ∧ nestedStrategy [JSON.str "m1", JSON.str "m2"]
      = JSON.arr [JSON.arr [JSON.str "m1", JSON.str "m2"]]
    ∧ enhanceConversationItem nestedStrategy
        (JSON.obj [("conversations", JSON.arr [JSON.str "m1", JSON.str "m2"])])
      = JSON.obj [("conversations", JSON.arr [JSON.str "m1", JSON.str "m2"])] :=
  ⟨rfl, rfl, unwrap_nested_response nestedStrategy
    [("conversations", JSON.arr [JSON.str "m1", JSON.str "m2"])]
    [JSON.str "m1", JSON.str "m2"] [JSON.str "m1", JSON.str "m2"] [] rfl rfl⟩

/-- C4: in a batch of three items whose middle item has a non-list
`conversations` value, the loop yields exactly three outputs: the outer items
enhanced, the malformed one unchanged. -/
theorem malformed_item_resilience (enhance : List JSON → JSON)
    (c0 c2 : JSON) (fields1 : List (String × JSON)) (v : JSON)
    (h1 : getField fields1 "conversations" = some v)
    (h2 : isArr v = false) :
    enhanceBatch enhance [c0, JSON.obj fields1, c2]
      = [enhanceConversationItem enhance c0, JSON.obj fields1,
         enhanceConversationItem enhance c2]
    ∧ (enhanceBatch enhance [c0, JSON.obj fields1, c2]).length = 3 := by
  have hmid := enhanceItem_of_malformed enhance fields1 v h1 h2
  constructor
  · simp [enhanceBatch, hmid]
  · simp [enhanceBatch]

/-- C4 witness: three concrete items, the middle one with a string-valued
`conversations` field, yield three outputs with the middle one unchanged. -/
theorem malformed_item_resilience_witness :
    getField [("conversations", JSON.str "oops")] "conversations"
      = some (JSON.str "oops")
    ∧ isArr (JSON.str "oops") = false
    ∧ enhanceBatch idStrategy
        [JSON.obj [("conversations", JSON.arr [JSON.str "a"])],
         JSON.obj [("conversations", JSON.str "oops")],
         JSON.obj [("conversations", JSON.arr [JSON.str "b"])]]
      = [enhanceConversationItem idStrategy
           (JSON.obj [("conversations", JSON.arr [JSON.str "a"])]),
         JSON.obj [("conversations", JSON.str "oops")],
         enhanceConversationItem idStrategy
           (JSON.obj [("conversations", JSON.arr [JSON.str "b"])])]
    ∧ (enhanceBatch idStrategy
        [JSON.obj [("conversations", JSON.arr [JSON.str "a"])],
         JSON.obj [("conversations", JSON.str "oops")],
         JSON.obj [("conversations", JSON.arr [JSON.str "b"])]]).length = 3 :=
  ⟨rfl, rfl,
    (malformed_item_resilience idStrategy
      (JSON.obj [("conversations", JSON.arr [JSON.str "a"])])
      (JSON.obj [("conversations", JSON.arr [JSON.str "b"])])
      [("conversations", JSON.str "oops")] (JSON.str "oops") rfl rfl).1,
    (malformed_item_resilience idStrategy
      (JSON.obj [("conversations", JSON.arr [JSON.str "a"])])
      (JSON.obj [("conversations", JSON.arr [JSON.str "b"])])
      [("conversations", JSON.str "oops")] (JSON.str "oops") rfl rfl).2⟩

/-- C5: a successfully enhanced conversation is the shallow copy of the input
dict with only `conversations` replaced; every other key keeps its original
value. -/
theorem enhancement_frame_property (enhance : List JSON → JSON)
    (fields : List (String × JSON)) (msgs : List JSON) (k : String)
    (h : getField fields "conversations" = some (JSON.arr msgs))
    (hk : k ≠ "conversations") :
    enhanceConversationItem enhance (JSON.obj fields)
      = JSON.obj (setField fields "conversations"
          (fixNestedResponse (enhance msgs)))
    ∧ getField (setField fields "conversations"
          (fixNestedResponse (enhance msgs))) k
      = getField fields k := by
  constructor
  · exact enhanceItem_of_list enhance fields msgs h
  · exact getField_setField_ne fields "conversations" k _ hk

/-- C5 witness: enhancing a conversation with an extra `id` field leaves the
`id` value untouched. -/
theorem enhancement_frame_property_witness :
    getField [("id", JSON.num 7), ("conversations", JSON.arr [JSON.str "m"])]
        "conversations" = some (JSON.arr [JSON.str "m"])
    ∧ ("id" : String) ≠ "conversations"
    ∧ enhanceConversationItem idStrategy
        (JSON.obj [("id", JSON.num 7), ("conversations", JSON.arr [JSON.str "m"])])
      = JSON.obj (setField [("id", JSON.num 7),
          ("conversations", JSON.arr [JSON.str "m"])] "conversations"
          (fixNestedResponse (idStrategy [JSON.str "m"])))
    ∧ getField (setField [("id", JSON.num 7),
          ("conversations", JSON.arr [JSON.str "m"])] "conversations"
          (fixNestedResponse (idStrategy [JSON.str "m"]))) "id"
      = getField [("id", JSON.num 7),
          ("conversations", JSON.arr [JSON.str "m"])] "id" :=
  ⟨rfl, by decide,
    (enhancement_frame_property idStrategy
      [("id", JSON.num 7), ("conversations", JSON.arr [JSON.str "m"])]
      [JSON.str "m"] "id" rfl (by decide)).1,
    (enhancement_frame_property idStrategy
      [("id", JSON.num 7), ("conversations", JSON.arr [JSON.str "m"])]
      [JSON.str "m"] "id" rfl (by decide)).2⟩

/-- C2 counterexample: with a supplied example limit of 0 (`num_pairs=0`),
the bare singleton input `{"conversations": []}` is truncated away and the
output written is the empty list `[]` — a list, not a bare object — so
`is_singleton` does not alone decide the wrapping. -/
theorem singleton_round_trip_counterexample :
    normalizeConversations (JSON.obj [("conversations", JSON.arr [])])
      = (JSON.arr [JSON.obj [("conversations", JSON.arr [])]], true)
    ∧ resolveMaxExamples (some 0) none = some 0
    ∧ cotEnhancePipeline idStrategy (some 0)
        (JSON.obj [("conversations", JSON.arr [])]) = some (JSON.arr [])
    ∧ isObj (JSON.arr []) = false :=
  ⟨rfl, rfl, rfl, rfl⟩

/-- C2 (amended): provided the example limit does not truncate — it is
absent, or at least 1 for the singleton input and at least the list length
for the list input (in the code the written value is bare exactly when
`is_single_conversation` holds and the post-truncation batch has one
element) — a bare `{"conversations": ...}` object round-trips to a bare
enhanced object, and a list of conversation objects round-trips to a list
with one enhanced object per input object. -/
theorem singleton_round_trip (enhance : List JSON → JSON)
    (maxE : Option Nat)
    (fields : List (String × JSON)) (c : JSON) (items : List JSON)
    (hqa : getField fields "qa_pairs" = none)
    (hc : getField fields "conversations" = some c)
    (hitems : ∀ it ∈ items, ∃ fs, it = JSON.obj fs
        ∧ (getField fs "conversations").isSome = true)
    (hm1 : ∀ m, maxE = some m → 1 ≤ m)
    (hmN : ∀ m, maxE = some m → items.length ≤ m) :
    cotEnhancePipeline enhance maxE (JSON.obj fields)
      = some (enhanceConversationItem enhance (JSON.obj fields))
    ∧ cotEnhancePipeline enhance maxE (JSON.arr items)
      = some (JSON.arr (enhanceBatch enhance items))
    ∧ (enhanceBatch enhance items).length = items.length := by
  have hall : items.all dictHasConversations = true := by
    rw [List.all_eq_true]
    intro it hit
    obtain ⟨fs, rfl, hfs⟩ := hitems it hit
    simpa [dictHasConversations] using hfs
  have htr1 : truncateConversations maxE [JSON.obj fields] = [JSON.obj fields] :=
    truncateConversations_of_le maxE _ (fun m hm => hm1 m hm)
  have htrN : truncateConversations maxE items = items :=
    truncateConversations_of_le maxE items hmN
  refine ⟨?_, ?_, ?_⟩
  · simp [cotEnhancePipeline, normalizeConversations, hqa, hc, toConvList,
      htr1, enhanceBatch, wrapOutput]
  · simp [cotEnhancePipeline, normalizeConversations, hall, toConvList,
      htrN, wrapOutput]
  · rw [enhanceBatch_eq_map, List.length_map]

/-- C2 witness: with a supplied, non-truncating limit of 5, a bare singleton
yields a bare object and a two-object list yields a two-object list. -/
theorem singleton_round_trip_witness :
    getField [("conversations", JSON.arr [JSON.str "m"])] "qa_pairs" = none
    ∧ getField [("conversations", JSON.arr [JSON.str "m"])] "conversations"
      = some (JSON.arr [JSON.str "m"])
    ∧ cotEnhancePipeline idStrategy (some 5)
        (JSON.obj [("conversations", JSON.arr [JSON.str "m"])])
      = some (enhanceConversationItem idStrategy
          (JSON.obj [("conversations", JSON.arr [JSON.str "m"])]))
    ∧ cotEnhancePipeline idStrategy (some 5)
        (JSON.arr [JSON.obj [("conversations", JSON.arr [JSON.str "m"])],
                   JSON.obj [("conversations", JSON.arr [JSON.str "n"])]])
      = some (JSON.arr (enhanceBatch idStrategy
          [JSON.obj [("conversations", JSON.arr [JSON.str "m"])],
           JSON.obj [("conversations", JSON.arr [JSON.str "n"])]]))
    ∧ (enhanceBatch idStrategy
        [JSON.obj [("conversations", JSON.arr [JSON.str "m"])],
         JSON.obj [("conversations", JSON.arr [JSON.str "n"])]]).length = 2 := by
  have h := singleton_round_trip idStrategy (some 5)
    [("conversations", JSON.arr [JSON.str "m"])] (JSON.arr [JSON.str "m"])
    [JSON.obj [("conversations", JSON.arr [JSON.str "m"])],
     JSON.obj [("conversations", JSON.arr [JSON.str "n"])]]
    rfl rfl (by
      intro it hit
      simp only [List.mem_cons, List.not_mem_nil, or_false] at hit
      rcases hit with rfl | rfl
      · exact ⟨[("conversations", JSON.arr [JSON.str "m"])], rfl, rfl⟩
      · exact ⟨[("conversations", JSON.arr [JSON.str "n"])], rfl, rfl⟩)
    (by intro m hm; injection hm with h5; omega)
    (by intro m hm; injection hm with h5; simp [h5.symm])
  exact ⟨rfl, rfl, h.1, h.2.1, h.2.2⟩

/-- C6: the explicit argument wins over the configured value, which wins over
no limit; with a limit `m` the pipeline enhances exactly the first `m`
conversations, in their original order, and nothing else. -/
theorem truncation_before_enhancement (enhance : List JSON → JSON)
    (items : List JSON) (m n : Nat) (cfg : Option Nat)
    (hitems : items.all dictHasConversations = true) :
    resolveMaxExamples (some n) cfg = some n
    ∧ resolveMaxExamples none cfg = cfg
    ∧ cotEnhancePipeline enhance (some m) (JSON.arr items)
        = some (JSON.arr (enhanceBatch enhance (items.take m)))
    ∧ enhanceBatch enhance (items.take m)
        = (items.take m).map (enhanceConversationItem enhance) := by
  refine ⟨rfl, rfl, ?_, enhanceBatch_eq_map enhance (items.take m)⟩
  have htr : truncateConversations (some m) items = items.take m := by
    simp only [truncateConversations]
    split
    · rfl
    · rename_i hle
      rw [List.take_of_length_le (Nat.le_of_not_lt hle)]
  simp [cotEnhancePipeline, normalizeConversations, hitems, toConvList, htr,
    wrapOutput]

/-- C6 witness: a limit of 2 over five conversations enhances exactly the
first two, in order. -/
theorem truncation_before_enhancement_witness :
    ([JSON.obj [("conversations", JSON.arr [JSON.str "c1"])],
      JSON.obj [("conversations", JSON.arr [JSON.str "c2"])],
      JSON.obj [("conversations", JSON.arr [JSON.str "c3"])],
      JSON.obj [("conversations", JSON.arr [JSON.str "c4"])],
      JSON.obj [("conversations", JSON.arr [JSON.str "c5"])]].all
        dictHasConversations) = true
    ∧ cotEnhancePipeline idStrategy (some 2)
        (JSON.arr [JSON.obj [("conversations", JSON.arr [JSON.str "c1"])],
          JSON.obj [("conversations", JSON.arr [JSON.str "c2"])],
          JSON.obj [("conversations", JSON.arr [JSON.str "c3"])],
          JSON.obj [("conversations", JSON.arr [JSON.str "c4"])],
          JSON.obj [("conversations", JSON.arr [JSON.str "c5"])]])
      = some (JSON.arr (enhanceBatch idStrategy
          ([JSON.obj [("conversations", JSON.arr [JSON.str "c1"])],
            JSON.obj [("conversations", JSON.arr [JSON.str "c2"])],
            JSON.obj [("conversations", JSON.arr [JSON.str "c3"])],
            JSON.obj [("conversations", JSON.arr [JSON.str "c4"])],
            JSON.obj [("conversations", JSON.arr [JSON.str "c5"])]].take 2)))
    ∧ enhanceBatch idStrategy
        ([JSON.obj [("conversations", JSON.arr [JSON.str "c1"])],
          JSON.obj [("conversations", JSON.arr [JSON.str "c2"])],
          JSON.obj [("conversations", JSON.arr [JSON.str "c3"])],
          JSON.obj [("conversations", JSON.arr [JSON.str "c4"])],
          JSON.obj [("conversations", JSON.arr [JSON.str "c5"])]].take 2)
      = [enhanceConversationItem idStrategy
           (JSON.obj [("conversations", JSON.arr [JSON.str "c1"])]),
         enhanceConversationItem idStrategy
           (JSON.obj [("conversations", JSON.arr [JSON.str "c2"])])] := by
  have h := truncation_before_enhancement idStrategy
    [JSON.obj [("conversations", JSON.arr [JSON.str "c1"])],
     JSON.obj [("conversations", JSON.arr [JSON.str "c2"])],
     JSON.obj [("conversations", JSON.arr [JSON.str "c3"])],
     JSON.obj [("conversations", JSON.arr [JSON.str "c4"])],
     JSON.obj [("conversations", JSON.arr [JSON.str "c5"])]] 2 0 none rfl
  exact ⟨rfl, h.2.2.1, by rw [h.2.2.2]; rfl⟩

/-- C7 counterexample: `https://youtube.com/paper.pdf` contains
`youtube.com`, yet the selector returns the PDF parser for either probe
result, because the `.pdf` extension branch precedes the URL branch. -/
theorem youtube_url_priority_counterexample :
    containsSub "youtube.com".data "https://youtube.com/paper.pdf".data = true
    ∧ determineParser "https://youtube.com/paper.pdf".data false false false
      = .ok .PDFParser
    ∧ determineParser "https://youtube.com/paper.pdf".data false true false
      = .ok .PDFParser
    ∧ Parser.PDFParser ≠ Parser.YouTubeParser :=
  ⟨rfl, rfl, rfl, by decide⟩

/-- C7 (amended): for every `http(s)` URL containing `youtube.com` or
`youtu.be` whose lowercased `splitext` extension is not `.pdf` (and with
`multimodal = false`), the selector returns the YouTube parser regardless of
the PDF probe's result and of file existence. -/
theorem youtube_url_selects_youtube (p : List Char) (probe fe : Bool)
    (hurl : (startsWithL "http://".data p || startsWithL "https://".data p)
      = true)
    (hyt : (containsSub "youtube.com".data p || containsSub "youtu.be".data p)
      = true)
    (hext : lowerL (splitextExt p) ≠ ".pdf".data) :
    determineParser p false probe fe = .ok .YouTubeParser := by
  simp [determineParser, hurl, hyt, hext]

/-- C7 witness: a plain watch URL gets the YouTube parser for both probe
results. -/
theorem youtube_url_selects_youtube_witness :
    (startsWithL "http://".data "https://www.youtube.com/watch?v=abc".data ||
      startsWithL "https://".data "https://www.youtube.com/watch?v=abc".data)
      = true
    ∧ (containsSub "youtube.com".data "https://www.youtube.com/watch?v=abc".data ||
        containsSub "youtu.be".data "https://www.youtube.com/watch?v=abc".data)
      = true
    ∧ lowerL (splitextExt "https://www.youtube.com/watch?v=abc".data)
      ≠ ".pdf".data
    ∧ determineParser "https://www.youtube.com/watch?v=abc".data false true false
      = .ok .YouTubeParser
    ∧ determineParser "https://www.youtube.com/watch?v=abc".data false false false
      = .ok .YouTubeParser :=
  ⟨rfl, rfl, by decide,
    youtube_url_selects_youtube "https://www.youtube.com/watch?v=abc".data
      true false rfl rfl (by decide),
    youtube_url_selects_youtube "https://www.youtube.com/watch?v=abc".data
      false false rfl rfl (by decide)⟩

/-- C9: a path or URL whose lowercased extension is `.pdf` always gets the
PDF parser when `multimodal = false`, whatever the probe result and whether
or not the file exists — the `.pdf` branch precedes both checks. -/
theorem pdf_extension_unconditional (p : List Char) (probe fe : Bool)
    (hext : lowerL (splitextExt p) = ".pdf".data) :
    determineParser p false probe fe = .ok .PDFParser := by
  simp [determineParser, hext]

/-- C9 witness: a non-existent local `.pdf` path still gets the PDF parser
rather than a `FileNotFoundError`. -/
theorem pdf_extension_unconditional_witness :
    lowerL (splitextExt "missing.pdf".data) = ".pdf".data
    ∧ determineParser "missing.pdf".data false false false = .ok .PDFParser :=
  ⟨rfl, pdf_extension_unconditional "missing.pdf".data false false rfl⟩

/-- C10: a YouTube channel URL — containing `youtube.com` but neither `v=`
nor `.be/` — reaches the name-derivation step (it selects the YouTube
parser), the video-id regex search finds no match, and deriving the output
name fails (the code calls `.group(1)` on `None`, an `AttributeError`). -/
theorem youtube_channel_name_derivation_fails :
    containsSub "youtube.com".data "https://www.youtube.com/@somechannel".data
      = true
    ∧ containsSub "v=".data "https://www.youtube.com/@somechannel".data = false
    ∧ containsSub ".be/".data "https://www.youtube.com/@somechannel".data = false
    ∧ determineParser "https://www.youtube.com/@somechannel".data false false false
      = .ok .YouTubeParser
    ∧ searchVideoId "https://www.youtube.com/@somechannel".data = none
    ∧ resolveOutputName none "https://www.youtube.com/@somechannel".data = none :=
  ⟨rfl, rfl, rfl, rfl, rfl, rfl⟩

/-- C8: a failing final write is swallowed in the `qa` branch — the output
path is still returned — while the `summary`, `cot` and `cot-enhance`
branches propagate the write failure to the caller. -/
theorem qa_write_failure_policy (base out gen : String) (wf : Bool)
    (enhance : List JSON → JSON) (np cfg : Option Nat) (data w : JSON)
    (hdata : cotEnhancePipeline enhance (resolveMaxExamples np cfg) data
      = some w) :
    process_file "qa" base out wf gen enhance np cfg (some data)
      = .ok (pathJoin out (base ++ "_qa_pairs.json"))
    ∧ (wf = true →
        process_file "summary" base out wf gen enhance np cfg (some data)
          = .error .writeError)
    ∧ (wf = true →
        process_file "cot" base out wf gen enhance np cfg (some data)
          = .error .writeError)
    ∧ (wf = true →
        process_file "cot-enhance" base out wf gen enhance np cfg (some data)
          = .error .writeError) := by
  refine ⟨rfl, fun h => by simp [process_file, h], fun h => by simp [process_file, h],
    fun h => ?_⟩
  simp [process_file, hdata, h]

/-- C8 witness: with a failing write, the `qa` branch still returns its path
while the other three branches raise. -/
theorem qa_write_failure_policy_witness :
    cotEnhancePipeline idStrategy (resolveMaxExamples none none)
        (JSON.obj [("conversations", JSON.arr [])])
      = some (JSON.obj [("conversations", JSON.arr [])])
    ∧ process_file "qa" "doc" "out" true "g" idStrategy none none
        (some (JSON.obj [("conversations", JSON.arr [])]))
      = .ok (pathJoin "out" ("doc" ++ "_qa_pairs.json"))
    ∧ process_file "summary" "doc" "out" true "g" idStrategy none none
        (some (JSON.obj [("conversations", JSON.arr [])]))
      = .error .writeError
    ∧ process_file "cot" "doc" "out" true "g" idStrategy none none
        (some (JSON.obj [("conversations", JSON.arr [])]))
      = .error .writeError
    ∧ process_file "cot-enhance" "doc" "out" true "g" idStrategy none none
        (some (JSON.obj [("conversations", JSON.arr [])]))
      = .error .writeError := by
  have h := qa_write_failure_policy "doc" "out" "g" true idStrategy none none
    (JSON.obj [("conversations", JSON.arr [])])
    (JSON.obj [("conversations", JSON.arr [])]) rfl
  exact ⟨rfl, h.1, h.2.1 rfl, h.2.2.1 rfl, h.2.2.2 rfl⟩

end SDK
